import Mathlib

/-!
Shallow embedding of the Frsky Smart Port sensor library (`src/FrskySP.cpp`):
the CRC fold, the 8-byte packet construction of `sendData`, the byte-stuffing
loop, the module state (`_sensorTable`, `_sensorTableIdx`, `_sensorId`,
`_sensorValues`) and the `poll` dispatcher, together with theorems about them.

Machine integers are modelled as `Nat` (with explicit `% 2 ^ w` where the C
code truncates) and the signed 32-bit `val` argument of `sendData` as `Int`.
-/

namespace FrskySP

def MAX_SENSORS : Nat := 8
def SPORT_FRAME_BEGIN : Nat := 0x7E
def SPORT_BYTE_STUFF_MARKER : Nat := 0x7D
def SPORT_BYTE_STUFF_MASK : Nat := 0x20

/-- One iteration of the loop body of `FrskySP_class::CRC` (lines 58–62):
`crc += packet[i]; crc += crc >> 8; crc &= 0x00ff; crc += crc >> 8; crc &= 0x00ff;`.
The accumulator is a C `short`; its value stays in `0..510`, so plain `Nat`
arithmetic is exact. -/
def crcStep (crc b : Nat) : Nat :=
  let c1 := crc + b
  let c2 := (c1 + c1 >>> 8) &&& 0xFF
  (c2 + c2 >>> 8) &&& 0xFF

/-- Model of `FrskySP_class::CRC` (lines 55–65): fold `crcStep` over the 8 packet bytes
starting from 0 and return `~crc` as a `uint8_t`.  The fold keeps the
accumulator below 256, so `~crc` truncated to 8 bits is `255 - crc`.
The C function reads exactly `packet[0..7]`; callers pass 8-byte lists. -/
def CRC (packet : List Nat) : Nat :=
  255 - packet.foldl crcStep 0

/-- The `uint64` view filled by `sendData` (line 82):
`packet.uint64 = (uint64_t) type | (uint64_t) id << 8 | (int64_t) val << 24;`.
The `int64_t` cast sign-extends `val`; OR-ing it into a `uint64_t` takes its
two's-complement bit pattern, i.e. the value modulo `2 ^ 64`. -/
def packUint64 (type id : Nat) (val : Int) : Nat :=
  type ||| id <<< 8 ||| ((val * 2 ^ 24) % (2 ^ 64 : Int)).toNat

/-- Byte `i` of the union (lines 34–39) on the little-endian target:
byte `i` of the `uint64` view. -/
def packetByte (u i : Nat) : Nat :=
  u >>> (8 * i) &&& 0xFF

/-- The raw 8-byte packet assembled by `sendData` (lines 80–83): the seven low
bytes of the packed `uint64`, then `packet.byte[7] = CRC (packet.byte)`
computed over the bytes as they stand (byte 7 included). -/
def sendPacket (type id : Nat) (val : Int) : List Nat :=
  let u := packUint64 type id val
  let b := (List.range 8).map (packetByte u)
  b.take 7 ++ [CRC b]

/-- The byte-stuffing applied to each outgoing byte (lines 89–96): `0x7E` and
`0x7D` are sent as `0x7D` followed by the byte XOR `0x20`; anything else is
sent unchanged. -/
def stuffByte (b : Nat) : List Nat :=
  if b = SPORT_FRAME_BEGIN ∨ b = SPORT_BYTE_STUFF_MARKER then
    [SPORT_BYTE_STUFF_MARKER, b ^^^ SPORT_BYTE_STUFF_MASK]
  else
    [b]

/-- The full stuffed byte stream of a packet (the `for` loop of lines 87–97). -/
def stuffAll (l : List Nat) : List Nat :=
  (l.map stuffByte).flatten

/-- Modelled from the spec: §4.2 de-stuffing, which the repository does not
contain (the codebase is sender-only).  Upon seeing `0x7D`, discard it and XOR
the following byte with `0x20`; other bytes pass through. -/
def destuff : List Nat → List Nat
  | [] => []
  | b :: rest =>
    if b = SPORT_BYTE_STUFF_MARKER then
      match rest with
      | [] => []
      | c :: rest2 => (c ^^^ SPORT_BYTE_STUFF_MASK) :: destuff rest2
    else
      b :: destuff rest

/-- External effects visible on the serial transport. -/
inductive SerialEvent where
  | setTX : Bool → SerialEvent
  | write : Nat → SerialEvent
  | flush : SerialEvent
deriving DecidableEq

/-- The sequence of external effects of one `sendData` call (lines 85–100):
assert the TX direction (`UART_C3 |= TXDIR`), write each (possibly stuffed)
packet byte, flush, release the TX direction (`UART_C3 &= ~TXDIR`). -/
def sendDataEvents (type id : Nat) (val : Int) : List SerialEvent :=
  SerialEvent.setTX true ::
    ((stuffAll (sendPacket type id val)).map SerialEvent.write ++
      [SerialEvent.flush, SerialEvent.setTX false])

/-- Model of `struct FrskySP_SensorData` (lines 41–44). -/
structure SensorData where
  id : Nat
  val : Nat
deriving DecidableEq

/-- The module state (lines 46–49): `_sensorTable`, `_sensorTableIdx`,
`_sensorId`, `_sensorValues`.  The C table is an array of `MAX_SENSORS = 8`
entries and indexing past it is undefined behaviour; the model totalizes the
table over `Nat` (every claim constrains indices to `0..7`). -/
structure FrskyState where
  sensorTable : Nat → SensorData
  sensorTableIdx : Nat
  sensorId : Nat
  sensorValues : Nat

/-- The static initialization of the module state: a zeroed table and zeroed
`_sensorTableIdx`, `_sensorId`, `_sensorValues`. -/
def initialState : FrskyState where
  sensorTable := fun _ => ⟨0, 0⟩
  sensorTableIdx := 0
  sensorId := 0
  sensorValues := 0

/-- The state effect of `FrskySP_class::begin` (lines 113–129): store the
device's poll id and the number of active sensor slots. -/
def FrskyState.begin (s : FrskyState) (sensorId sensorValues : Nat) : FrskyState :=
  { s with sensorId := sensorId, sensorValues := sensorValues }

/-- Model of `FrskySP_class::setSensorData` (lines 159–167): overwrite slot `idx`. -/
def setSensorData (s : FrskyState) (idx id val : Nat) : FrskyState :=
  { s with sensorTable := fun j => if j = idx then ⟨id, val⟩ else s.sensorTable j }

/-- The state effect of `FrskySP_class::sendData`: none — `sendData` reads and
writes no module state (lines 78–101); its external effects are
`sendDataEvents`. -/
def sendDataState (s : FrskyState) (_type _id : Nat) (_val : Int) : FrskyState :=
  s

/-- The `uint32_t` slot value is passed to `sendData`'s `int32_t` parameter:
two's-complement reinterpretation of the low 32 bits. -/
def toInt32 (u : Nat) : Int :=
  if u % 2 ^ 32 < 2 ^ 31 then ((u % 2 ^ 32 : Nat) : Int)
  else ((u % 2 ^ 32 : Nat) : Int) - 2 ^ 32

/-- Model of `FrskySP_class::poll` (lines 134–154) over a finite list of input bytes:
scan for `SPORT_FRAME_BEGIN`; on it, read the next byte (the C code spins on
`while (!available())` — if no byte ever arrives the dispatcher hangs, which
the model reports as a `true` third component); if that byte equals
`_sensorId` and `_sensorValues` is non-zero, send the packet for the slot at
`_sensorTableIdx` and advance the index modulo `_sensorValues`.
Returns the final state, the raw packets handed to `sendData` in order, and
whether the loop is blocked waiting for an id byte. -/
def pollLoop (s : FrskyState) : List Nat → FrskyState × List (List Nat) × Bool
  | [] => (s, [], false)
  | b :: rest =>
    if b = SPORT_FRAME_BEGIN then
      match rest with
      | [] => (s, [], true)
      | b2 :: rest2 =>
        if b2 = s.sensorId ∧ s.sensorValues ≠ 0 then
          let sent := sendPacket 0x10 (s.sensorTable s.sensorTableIdx).id
            (toInt32 (s.sensorTable s.sensorTableIdx).val)
          let s' := { s with sensorTableIdx := (s.sensorTableIdx + 1) % s.sensorValues }
          ((pollLoop s' rest2).1, sent :: (pollLoop s' rest2).2.1, (pollLoop s' rest2).2.2)
        else
          pollLoop s rest2
    else
      pollLoop s rest

/-- The input for `k` consecutive well-formed polls for device id `sid`: the byte sequence
`[0x7E, sid]` repeated `k` times. -/
def pollInputs (sid k : Nat) : List Nat :=
  (List.replicate k [SPORT_FRAME_BEGIN, sid]).flatten

/-! ### Arithmetic characterization of the CRC step -/

lemma and_255_eq_mod (x : Nat) : x &&& 255 = x % 256 :=
  Nat.and_pow_two_sub_one_eq_mod x 8

lemma crcStep_eq (crc b : Nat) :
    crcStep crc b = (crc + b + (crc + b) / 256) % 256 := by
  simp only [crcStep, Nat.shiftRight_eq_div_pow, and_255_eq_mod]
  norm_num

lemma crcStep_lt (crc b : Nat) : crcStep crc b < 256 := by
  rw [crcStep_eq]; omega

lemma foldl_crcStep_lt (l : List Nat) (acc : Nat) (h : acc < 256) :
    l.foldl crcStep acc < 256 := by
  induction l generalizing acc with
  | nil => simpa using h
  | cons x l ih => simpa using ih (crcStep acc x) (crcStep_lt _ _)

lemma crcStep_pos (crc b : Nat) (hc : crc < 256) (hb : b < 256) (h : 0 < b) :
    0 < crcStep crc b := by
  rw [crcStep_eq]
  rcases Nat.lt_or_ge (crc + b) 256 with h' | h'
  · rw [Nat.div_eq_of_lt h']; omega
  · rw [(by omega : (crc + b) / 256 = 1)]; omega

lemma crcStep_255_eq_zero (crc : Nat) (h1 : 0 < crc) (h2 : crc < 256) :
    crcStep crc 255 = crcStep crc 0 := by
  rw [crcStep_eq, crcStep_eq]
  rw [(by omega : (crc + 255) / 256 = 1), Nat.div_eq_of_lt (by omega : crc + 0 < 256)]
  omega

/-- Appending the one's-complement zero `0xFF` instead of `0x00` as the final
byte gives the same CRC, as long as the accumulator over the prefix is
non-zero. -/
lemma CRC_append_255 (xs : List Nat) (h : 0 < xs.foldl crcStep 0) :
    CRC (xs ++ [255]) = CRC (xs ++ [0]) := by
  have hlt := foldl_crcStep_lt xs 0 (by omega)
  rw [CRC, CRC, List.foldl_append, List.foldl_append]
  simp only [List.foldl_cons, List.foldl_nil]
  rw [crcStep_255_eq_zero _ h hlt]

/-- Each CRC step is addition modulo 255 (the defining property of a
fold-carry one's-complement accumulator). -/
lemma crcStep_mod255 (crc b : Nat) (hc : crc < 256) (hb : b < 256) :
    crcStep crc b % 255 = (crc + b) % 255 := by
  rw [crcStep_eq]
  rcases Nat.lt_or_ge (crc + b) 256 with h' | h'
  · rw [Nat.div_eq_of_lt h']; omega
  · rw [(by omega : (crc + b) / 256 = 1)]; omega

lemma foldl_crcStep_mod255 (l : List Nat) (acc : Nat) (hacc : acc < 256)
    (hl : ∀ x ∈ l, x < 256) :
    l.foldl crcStep acc % 255 = (acc + l.sum) % 255 := by
  induction l generalizing acc with
  | nil => simp
  | cons x l ih =>
    simp only [List.foldl_cons, List.sum_cons]
    have hx : x < 256 := hl x (by simp)
    have h1 := ih (crcStep acc x) (crcStep_lt _ _) (fun y hy => hl y (by simp [hy]))
    have h2 := crcStep_mod255 acc x hacc hx
    omega

lemma sum_set (l : List Nat) (i v : Nat) (h : i < l.length) :
    (l.set i v).sum + l.getD i 0 = l.sum + v := by
  induction l generalizing i with
  | nil => simp at h
  | cons x l ih =>
    cases i with
    | zero => simp [List.set]; omega
    | succ i =>
      have := ih i (by simpa using h)
      simp only [List.set, List.sum_cons, List.getD_cons_succ]
      omega

/-! ### The byte layout of the packed `uint64` -/

lemma packetByte_eq (u i : Nat) : packetByte u i = u / 2 ^ (8 * i) % 256 := by
  rw [packetByte, Nat.shiftRight_eq_div_pow, and_255_eq_mod]

lemma packUint64_eq (type id : Nat) (val : Int) (ht : type < 256) (hi : id < 65536) :
    packUint64 type id val = type + id * 256 + (val % (2 ^ 40 : Int)).toNat * 2 ^ 24 := by
  have h1 : ((val * 2 ^ 24) % (2 ^ 64 : Int)).toNat = (val % (2 ^ 40 : Int)).toNat * 2 ^ 24 := by
    omega
  rw [packUint64, h1, Nat.shiftLeft_eq]
  set vl := (val % (2 ^ 40 : Int)).toNat with hvl
  have h2 : type ||| id * 2 ^ 8 = 2 ^ 8 * id + type := by
    rw [Nat.mul_comm id, Nat.or_comm]
    exact (Nat.mul_add_lt_is_or ht id).symm
  have h3 : 2 ^ 8 * id + type < 2 ^ 24 := by omega
  have h4 : (2 ^ 8 * id + type) ||| vl * 2 ^ 24 = 2 ^ 24 * vl + (2 ^ 8 * id + type) := by
    rw [Nat.mul_comm vl, Nat.or_comm]
    exact (Nat.mul_add_lt_is_or h3 vl).symm
  rw [h2, h4]
  omega

/-- The raw packet of `sendData`, byte by byte: `type`, the logical id
low-byte-first, the value low-byte-first in two's complement, and the CRC
written over the packet as it stands — whose placeholder byte 7 is `0xFF`
for negative values (the `(int64_t) val << 24` sign extension) and `0x00`
otherwise. -/
lemma sendPacket_eq (type id : Nat) (val : Int) (ht : type < 256) (hi : id < 65536)
    (hv1 : -2 ^ 31 ≤ val) (hv2 : val < 2 ^ 31) :
    sendPacket type id val =
      [type, id % 256, id / 256,
       (val % (2 ^ 32 : Int)).toNat % 256,
       (val % (2 ^ 32 : Int)).toNat / 2 ^ 8 % 256,
       (val % (2 ^ 32 : Int)).toNat / 2 ^ 16 % 256,
       (val % (2 ^ 32 : Int)).toNat / 2 ^ 24 % 256,
       CRC [type, id % 256, id / 256,
            (val % (2 ^ 32 : Int)).toNat % 256,
            (val % (2 ^ 32 : Int)).toNat / 2 ^ 8 % 256,
            (val % (2 ^ 32 : Int)).toNat / 2 ^ 16 % 256,
            (val % (2 ^ 32 : Int)).toNat / 2 ^ 24 % 256,
            if val < 0 then 255 else 0]] := by
  have hu := packUint64_eq type id val ht hi
  set vl := (val % (2 ^ 40 : Int)).toNat with hvl_def
  set vN := (val % (2 ^ 32 : Int)).toNat with hvN_def
  have hvl : vl < 2 ^ 40 := by omega
  have hvN : vN < 2 ^ 32 := by omega
  have hrel : (val < 0 ∧ vl = vN + 255 * 2 ^ 32 ∧ 2 ^ 31 ≤ vN) ∨
      (0 ≤ val ∧ vl = vN ∧ vN < 2 ^ 31) := by omega
  have hb : ∀ i, packetByte (packUint64 type id val) i
      = (type + id * 256 + vl * 2 ^ 24) / 2 ^ (8 * i) % 256 := by
    intro i; rw [packetByte_eq, hu]
  show ([0, 1, 2, 3, 4, 5, 6, 7].map (packetByte (packUint64 type id val))).take 7
      ++ [CRC ([0, 1, 2, 3, 4, 5, 6, 7].map (packetByte (packUint64 type id val)))] = _
  simp only [List.map_cons, List.map_nil, hb]
  norm_num
  have h0 : (type + id * 256 + vl * 16777216) % 256 = type := by omega
  have h1 : (type + id * 256 + vl * 16777216) / 256 % 256 = id % 256 := by omega
  have h2 : (type + id * 256 + vl * 16777216) / 65536 % 256 = id / 256 := by omega
  have h3 : (type + id * 256 + vl * 16777216) / 16777216 % 256 = vN % 256 := by omega
  have h4 : (type + id * 256 + vl * 16777216) / 4294967296 % 256 = vN / 256 % 256 := by omega
  have h5 : (type + id * 256 + vl * 16777216) / 1099511627776 % 256 = vN / 65536 % 256 := by
    omega
  have h6 : (type + id * 256 + vl * 16777216) / 281474976710656 % 256
      = vN / 16777216 % 256 := by omega
  have h7 : (type + id * 256 + vl * 16777216) / 72057594037927936 % 256
      = if val < 0 then 255 else 0 := by
    rcases hrel with ⟨hneg, hrel1, hrel2⟩ | ⟨hpos, hrel1, hrel2⟩
    · rw [if_pos hneg]; omega
    · rw [if_neg (by omega)]; omega
  rw [h0, h1, h2, h3, h4, h5, h6, h7]
  exact ⟨rfl, rfl, rfl, rfl, rfl, rfl, rfl, rfl⟩

/-! ### The `uint32 -> int32` reinterpretation -/

lemma toInt32_lb (u : Nat) : -2 ^ 31 ≤ toInt32 u := by
  unfold toInt32; split <;> omega

lemma toInt32_ub (u : Nat) : toInt32 u < 2 ^ 31 := by
  unfold toInt32; split <;> omega

lemma toInt32_mod (u : Nat) : (toInt32 u % (2 ^ 32 : Int)).toNat = u % 2 ^ 32 := by
  unfold toInt32; split <;> omega

/-! ### Stuffing and de-stuffing -/

lemma destuff_marker_cons (c : Nat) (rest : List Nat) :
    destuff (SPORT_BYTE_STUFF_MARKER :: c :: rest)
      = (c ^^^ SPORT_BYTE_STUFF_MASK) :: destuff rest :=
  rfl

lemma destuff_cons_of_ne (b : Nat) (rest : List Nat) (hb : ¬b = SPORT_BYTE_STUFF_MARKER) :
    destuff (b :: rest) = b :: destuff rest := by
  rw [destuff.eq_def]
  simp only [if_neg hb]

lemma destuff_stuffAll (l : List Nat) : destuff (stuffAll l) = l := by
  induction l with
  | nil => rfl
  | cons b l ih =>
    by_cases hb : b = SPORT_FRAME_BEGIN ∨ b = SPORT_BYTE_STUFF_MARKER
    · simp only [stuffAll, List.map_cons, List.flatten_cons, stuffByte, if_pos hb]
      show destuff (SPORT_BYTE_STUFF_MARKER :: (b ^^^ SPORT_BYTE_STUFF_MASK) ::
        (l.map stuffByte).flatten) = b :: l
      rw [destuff_marker_cons]
      rw [show SPORT_BYTE_STUFF_MASK = 32 from rfl, Nat.xor_cancel_right]
      exact congrArg (b :: ·) ih
    · simp only [stuffAll, List.map_cons, List.flatten_cons, stuffByte, if_neg hb]
      have hb2 : ¬b = SPORT_BYTE_STUFF_MARKER := fun h => hb (Or.inr h)
      show destuff (b :: (l.map stuffByte).flatten) = b :: l
      rw [destuff_cons_of_ne _ _ hb2]
      exact congrArg (b :: ·) ih

/-! ### Unfolding lemmas for the poll dispatcher -/

lemma pollLoop_nil (s : FrskyState) : pollLoop s [] = (s, [], false) := rfl

lemma pollLoop_hang (s : FrskyState) : pollLoop s [SPORT_FRAME_BEGIN] = (s, [], true) := rfl

lemma pollLoop_skip (s : FrskyState) (b : Nat) (rest : List Nat) (h : ¬b = SPORT_FRAME_BEGIN) :
    pollLoop s (b :: rest) = pollLoop s rest := by
  rw [pollLoop.eq_def]
  simp only [if_neg h]

lemma pollLoop_nomatch (s : FrskyState) (x : Nat) (rest : List Nat)
    (h : ¬(x = s.sensorId ∧ s.sensorValues ≠ 0)) :
    pollLoop s (SPORT_FRAME_BEGIN :: x :: rest) = pollLoop s rest := by
  rw [pollLoop.eq_def]
  simp [h]

lemma pollLoop_match (s : FrskyState) (rest : List Nat) (h : s.sensorValues ≠ 0) :
    pollLoop s (SPORT_FRAME_BEGIN :: s.sensorId :: rest) =
      ((pollLoop { s with sensorTableIdx := (s.sensorTableIdx + 1) % s.sensorValues } rest).1,
       sendPacket 0x10 (s.sensorTable s.sensorTableIdx).id
           (toInt32 (s.sensorTable s.sensorTableIdx).val) ::
         (pollLoop { s with sensorTableIdx := (s.sensorTableIdx + 1) % s.sensorValues }
             rest).2.1,
       (pollLoop { s with sensorTableIdx := (s.sensorTableIdx + 1) % s.sensorValues }
           rest).2.2) := by
  rw [pollLoop.eq_def]
  simp [h]

/-! ### Behaviour of the poll dispatcher -/

/-- The raw packet `poll` sends for slot `j`: type `0x10`, the slot's id and
value (the `uint32` value reinterpreted as `int32`). -/
def slotPacket (s : FrskyState) (j : Nat) : List Nat :=
  sendPacket 0x10 (s.sensorTable j).id (toInt32 (s.sensorTable j).val)

lemma pollInputs_zero (sid : Nat) : pollInputs sid 0 = [] := rfl

lemma pollInputs_succ (sid k : Nat) :
    pollInputs sid (k + 1) = SPORT_FRAME_BEGIN :: sid :: pollInputs sid k := by
  simp [pollInputs, List.replicate_succ]

lemma pollLoop_len_inactive : ∀ (n : Nat) (l : List Nat), l.length ≤ n →
    ∀ s : FrskyState, s.sensorValues = 0 →
    (pollLoop s l).1 = s ∧ (pollLoop s l).2.1 = [] := by
  intro n
  induction n with
  | zero =>
    intro l hl s h
    have : l = [] := List.eq_nil_of_length_eq_zero (Nat.le_zero.mp hl)
    subst this
    simp [pollLoop_nil]
  | succ n ih =>
    intro l hl s h
    cases l with
    | nil => simp [pollLoop_nil]
    | cons b rest =>
      by_cases hb : b = SPORT_FRAME_BEGIN
      · subst hb
        cases rest with
        | nil => simp [pollLoop_hang]
        | cons x rest2 =>
          rw [pollLoop_nomatch s x rest2 (by simp [h])]
          exact ih rest2 (by simp at hl; omega) s h
      · rw [pollLoop_skip s b rest hb]
        exact ih rest (by simp at hl; omega) s h

lemma pollLoop_inactive (l : List Nat) (s : FrskyState) (h : s.sensorValues = 0) :
    (pollLoop s l).1 = s ∧ (pollLoop s l).2.1 = [] :=
  pollLoop_len_inactive l.length l (Nat.le_refl _) s h

lemma pollLoop_len_idx_lt : ∀ (n : Nat) (l : List Nat), l.length ≤ n →
    ∀ s : FrskyState, s.sensorTableIdx < s.sensorValues →
    (pollLoop s l).1.sensorTableIdx < (pollLoop s l).1.sensorValues := by
  intro n
  induction n with
  | zero =>
    intro l hl s hc
    have : l = [] := List.eq_nil_of_length_eq_zero (Nat.le_zero.mp hl)
    subst this
    simpa [pollLoop_nil] using hc
  | succ n ih =>
    intro l hl s hc
    cases l with
    | nil => simpa [pollLoop_nil] using hc
    | cons b rest =>
      by_cases hb : b = SPORT_FRAME_BEGIN
      · subst hb
        cases rest with
        | nil => simpa [pollLoop_hang] using hc
        | cons x rest2 =>
          by_cases hx : x = s.sensorId
          · subst hx
            rw [pollLoop_match s rest2 (by omega)]
            exact ih rest2 (by simp at hl; omega) _
              (Nat.mod_lt _ (by omega))
          · rw [pollLoop_nomatch s x rest2 (by tauto)]
            exact ih rest2 (by simp at hl; omega) s hc
      · rw [pollLoop_skip s b rest hb]
        exact ih rest (by simp at hl; omega) s hc

lemma pollLoop_rotation : ∀ (k : Nat) (s : FrskyState), s.sensorValues ≠ 0 →
    s.sensorTableIdx < s.sensorValues →
    pollLoop s (pollInputs s.sensorId k) =
      ({ s with sensorTableIdx := (s.sensorTableIdx + k) % s.sensorValues },
       (List.range k).map (fun j => slotPacket s ((s.sensorTableIdx + j) % s.sensorValues)),
       false) := by
  intro k
  induction k with
  | zero =>
    intro s hn hc
    rw [pollInputs_zero, pollLoop_nil, Nat.add_zero, Nat.mod_eq_of_lt hc]
    rfl
  | succ k ih =>
    intro s hn hc
    rw [pollInputs_succ, pollLoop_match s _ hn]
    have hc' : (s.sensorTableIdx + 1) % s.sensorValues < s.sensorValues :=
      Nat.mod_lt _ (by omega)
    rw [ih { s with sensorTableIdx := (s.sensorTableIdx + 1) % s.sensorValues } hn hc']
    have e1 : ((s.sensorTableIdx + 1) % s.sensorValues + k) % s.sensorValues
        = (s.sensorTableIdx + (k + 1)) % s.sensorValues := by
      rw [Nat.mod_add_mod,
        show s.sensorTableIdx + 1 + k = s.sensorTableIdx + (k + 1) from by omega]
    have e2 : ∀ j : Nat,
        slotPacket { s with sensorTableIdx := (s.sensorTableIdx + 1) % s.sensorValues }
            (((s.sensorTableIdx + 1) % s.sensorValues + j) % s.sensorValues)
          = slotPacket s ((s.sensorTableIdx + (j + 1)) % s.sensorValues) := by
      intro j
      show slotPacket s (((s.sensorTableIdx + 1) % s.sensorValues + j) % s.sensorValues)
        = slotPacket s ((s.sensorTableIdx + (j + 1)) % s.sensorValues)
      rw [Nat.mod_add_mod,
        show s.sensorTableIdx + 1 + j = s.sensorTableIdx + (j + 1) from by omega]
    show ({ s with sensorTableIdx := ((s.sensorTableIdx + 1) % s.sensorValues + k) % s.sensorValues },
        slotPacket s (s.sensorTableIdx) ::
          (List.range k).map (fun j =>
            slotPacket { s with sensorTableIdx := (s.sensorTableIdx + 1) % s.sensorValues }
              (((s.sensorTableIdx + 1) % s.sensorValues + j) % s.sensorValues)),
        false) = _
    rw [e1]
    congr 1
    rw [List.range_succ_eq_map, List.map_cons, List.map_map]
    congr 1
    congr 1
    · rw [Nat.add_zero, Nat.mod_eq_of_lt hc]
    · have hf : (fun j => slotPacket
            { s with sensorTableIdx := (s.sensorTableIdx + 1) % s.sensorValues }
            (((s.sensorTableIdx + 1) % s.sensorValues + j) % s.sensorValues))
          = ((fun j => slotPacket s ((s.sensorTableIdx + j) % s.sensorValues)) ∘ Nat.succ) := by
        funext j
        exact e2 j
      rw [hf]

/-! ### Packet injectivity and counting helpers -/

lemma SensorData.ext' (a b : SensorData) (h1 : a.id = b.id) (h2 : a.val = b.val) : a = b := by
  cases a; cases b; simp_all

lemma getD_lt_256 (b : List Nat) (i : Nat) (hi : i < b.length)
    (hall : ∀ x ∈ b, x < 256) : b.getD i 0 < 256 := by
  induction b generalizing i with
  | nil => simp at hi
  | cons x l ih =>
    cases i with
    | zero => exact hall x (by simp)
    | succ i =>
      rw [List.getD_cons_succ]
      exact ih i (by simpa using hi) (fun y hy => hall y (by simp [hy]))

/-- Two data packets sent by `poll` coincide only when the slots' logical ids
and values coincide. -/
lemma sendPacket_inj (id1 id2 u1 u2 : Nat) (hi1 : id1 < 65536) (hi2 : id2 < 65536)
    (hu1 : u1 < 2 ^ 32) (hu2 : u2 < 2 ^ 32)
    (h : sendPacket 0x10 id1 (toInt32 u1) = sendPacket 0x10 id2 (toInt32 u2)) :
    id1 = id2 ∧ u1 = u2 := by
  rw [sendPacket_eq _ _ _ (by norm_num) hi1 (toInt32_lb u1) (toInt32_ub u1),
      sendPacket_eq _ _ _ (by norm_num) hi2 (toInt32_lb u2) (toInt32_ub u2),
      toInt32_mod u1, toInt32_mod u2,
      Nat.mod_eq_of_lt hu1, Nat.mod_eq_of_lt hu2] at h
  simp only [List.cons.injEq] at h
  obtain ⟨-, h1, h2, h3, h4, h5, h6, -⟩ := h
  omega

lemma count_map_eq_count (f : Nat → List Nat) (n j : Nat)
    (hj : j < n) (hinj : ∀ x, x < n → f x = f j → x = j) :
    ∀ l : List Nat, (∀ x ∈ l, x < n) → (l.map f).count (f j) = l.count j := by
  intro l
  induction l with
  | nil => simp
  | cons a l ih =>
    intro hl
    have ha : a < n := hl a (by simp)
    have ih' := ih (fun x hx => hl x (by simp [hx]))
    by_cases haj : a = j
    · subst haj
      simp [List.count_cons, ih']
    · have hfa : f a ≠ f j := fun hh => haj (hinj a ha hh)
      simp [List.count_cons, ih', hfa, haj]

/-- The cursor rotation `i ↦ (c + i) % n` enumerates each slot index below `n`
exactly once over `List.range n`. -/
lemma count_rot (n c j : Nat) (hn : 0 < n) (hc : c < n) (hj : j < n) :
    ((List.range n).map (fun i => (c + i) % n)).count j = 1 := by
  have hnd : ((List.range n).map (fun i => (c + i) % n)).Nodup := by
    refine List.Nodup.map_on ?_ (List.nodup_range _)
    intro x hx y hy hxy
    simp only [List.mem_range] at hx hy
    have hxy' : x ≡ y [MOD n] := Nat.ModEq.add_left_cancel' c hxy
    have : x % n = y % n := hxy'
    rwa [Nat.mod_eq_of_lt hx, Nat.mod_eq_of_lt hy] at this
  have hmem : j ∈ (List.range n).map (fun i => (c + i) % n) := by
    rcases Nat.lt_or_ge j c with h | h
    · refine List.mem_map.mpr ⟨j + n - c, List.mem_range.mpr (by omega), ?_⟩
      rw [show c + (j + n - c) = j + n from by omega, Nat.add_mod_right,
        Nat.mod_eq_of_lt hj]
    · refine List.mem_map.mpr ⟨j - c, List.mem_range.mpr (by omega), ?_⟩
      rw [show c + (j - c) = j from by omega, Nat.mod_eq_of_lt hj]
  exact List.count_eq_one_of_mem hnd hmem

/-! ### Claim theorems -/

/-- C1: for every `type : u8`, `sensorLogicalId : u16` and `value : i32` —
negative values included — byte 7 of the raw 8-byte packet built by
`sendData` equals the §4.1 fold-carry one's-complement checksum of the packet
computed with byte 7 treated as a zero placeholder. -/
theorem sendData_checksum_placeholder (type id : Nat) (val : Int)
    (ht : type < 256) (hi : id < 65536) (hv1 : -2 ^ 31 ≤ val) (hv2 : val < 2 ^ 31) :
    (sendPacket type id val).getD 7 0
      = CRC ((sendPacket type id val).take 7 ++ [0]) := by
  rw [sendPacket_eq type id val ht hi hv1 hv2]
  set vN := (val % (2 ^ 32 : Int)).toNat with hvN_def
  simp only [List.getD_cons_succ, List.getD_cons_zero, List.take_succ_cons, List.take_zero,
    List.cons_append, List.nil_append]
  by_cases hneg : val < 0
  · rw [if_pos hneg]
    show CRC ([type, id % 256, id / 256, vN % 256, vN / 2 ^ 8 % 256, vN / 2 ^ 16 % 256,
        vN / 2 ^ 24 % 256] ++ [255])
      = CRC ([type, id % 256, id / 256, vN % 256, vN / 2 ^ 8 % 256, vN / 2 ^ 16 % 256,
        vN / 2 ^ 24 % 256] ++ [0])
    apply CRC_append_255
    show 0 < List.foldl crcStep 0
      ([type, id % 256, id / 256, vN % 256, vN / 2 ^ 8 % 256, vN / 2 ^ 16 % 256]
        ++ [vN / 2 ^ 24 % 256])
    rw [List.foldl_append]
    apply crcStep_pos
    · exact foldl_crcStep_lt _ _ (by norm_num)
    · exact Nat.mod_lt _ (by norm_num)
    · have h31 : 2 ^ 31 ≤ vN := by omega
      have h32 : vN < 2 ^ 32 := by omega
      omega
  · rw [if_neg hneg]

/-- C1 witness: the property instantiated at `type = 0x10`, `id = 0x0600`,
`value = -5` (a negative value, where the sign extension fills byte 7 with
`0xFF` before the CRC is taken). -/
theorem sendData_checksum_placeholder_witness :
    (0x10 : Nat) < 256 ∧ (0x0600 : Nat) < 65536
      ∧ -2 ^ 31 ≤ (-5 : Int) ∧ (-5 : Int) < 2 ^ 31
      ∧ (sendPacket 0x10 0x0600 (-5)).getD 7 0
          = CRC ((sendPacket 0x10 0x0600 (-5)).take 7 ++ [0]) :=
  ⟨by norm_num, by norm_num, by norm_num, by norm_num,
   sendData_checksum_placeholder 0x10 0x0600 (-5)
     (by norm_num) (by norm_num) (by norm_num) (by norm_num)⟩

/-- C2: the raw packet has byte 0 = `type`, bytes 1–2 = the logical id low
byte first, bytes 3–6 = the value low byte first in two's complement; and
concretely `sendData (0x10, 0x0600, 1234)` builds
`[0x10, 0x00, 0x06, 0xD2, 0x04, 0x00, 0x00, CRC]` with `CRC` the checksum of
the first 7 bytes plus a 0 placeholder at position 7. -/
theorem sendData_packet_layout (type id : Nat) (val : Int)
    (ht : type < 256) (hi : id < 65536) (hv1 : -2 ^ 31 ≤ val) (hv2 : val < 2 ^ 31) :
    (sendPacket type id val).getD 0 0 = type
      ∧ (sendPacket type id val).getD 1 0 = id % 256
      ∧ (sendPacket type id val).getD 2 0 = id / 256
      ∧ (sendPacket type id val).getD 3 0 = (val % (2 ^ 32 : Int)).toNat % 256
      ∧ (sendPacket type id val).getD 4 0 = (val % (2 ^ 32 : Int)).toNat / 2 ^ 8 % 256
      ∧ (sendPacket type id val).getD 5 0 = (val % (2 ^ 32 : Int)).toNat / 2 ^ 16 % 256
      ∧ (sendPacket type id val).getD 6 0 = (val % (2 ^ 32 : Int)).toNat / 2 ^ 24 % 256
      ∧ sendPacket 0x10 0x0600 1234
          = [0x10, 0x00, 0x06, 0xD2, 0x04, 0x00, 0x00,
             CRC ([0x10, 0x00, 0x06, 0xD2, 0x04, 0x00, 0x00] ++ [0])] := by
  rw [sendPacket_eq type id val ht hi hv1 hv2]
  exact ⟨rfl, rfl, rfl, rfl, rfl, rfl, rfl, by decide⟩

/-- C2 witness: the layout instantiated at `type = 0x10`, `id = 0x0600`,
`value = 1234`. -/
theorem sendData_packet_layout_witness :
    (0x10 : Nat) < 256 ∧ (0x0600 : Nat) < 65536
      ∧ -2 ^ 31 ≤ (1234 : Int) ∧ (1234 : Int) < 2 ^ 31
      ∧ (sendPacket 0x10 0x0600 1234).getD 0 0 = 0x10
      ∧ sendPacket 0x10 0x0600 1234
          = [0x10, 0x00, 0x06, 0xD2, 0x04, 0x00, 0x00,
             CRC ([0x10, 0x00, 0x06, 0xD2, 0x04, 0x00, 0x00] ++ [0])] :=
  ⟨by norm_num, by norm_num, by norm_num, by norm_num,
   (sendData_packet_layout 0x10 0x0600 1234
     (by norm_num) (by norm_num) (by norm_num) (by norm_num)).1,
   (sendData_packet_layout 0x10 0x0600 1234
     (by norm_num) (by norm_num) (by norm_num) (by norm_num)).2.2.2.2.2.2.2⟩

/-- C3: stuffing escapes exactly the two marker bytes `0x7E` and `0x7D`
(emitting `0x7D` then the byte XOR `0x20`) and passes every other byte
through unchanged, so de-stuffing per §4.2 recovers the raw packet bytes. -/
theorem stuffing_escapes_markers :
    (∀ v : Nat,
        (v ≠ SPORT_FRAME_BEGIN ∧ v ≠ SPORT_BYTE_STUFF_MARKER → stuffByte v = [v])
      ∧ ((v = SPORT_FRAME_BEGIN ∨ v = SPORT_BYTE_STUFF_MARKER) →
          stuffByte v = [SPORT_BYTE_STUFF_MARKER, v ^^^ SPORT_BYTE_STUFF_MASK]))
    ∧ ∀ (type id : Nat) (val : Int),
        destuff (stuffAll (sendPacket type id val)) = sendPacket type id val := by
  refine ⟨fun v => ⟨fun h => ?_, fun h => ?_⟩, fun type id val => destuff_stuffAll _⟩
  · rw [stuffByte, if_neg (by tauto)]
  · rw [stuffByte, if_pos h]

/-- C3 witness: a plain byte passes through, a marker byte is escaped, and
the concrete packet for `(0x10, 0x0600, 1234)` de-stuffs to itself. -/
theorem stuffing_escapes_markers_witness :
    stuffByte 0x10 = [0x10] ∧ stuffByte 0x7E = [0x7D, 0x5E]
      ∧ destuff (stuffAll (sendPacket 0x10 0x0600 1234)) = sendPacket 0x10 0x0600 1234 :=
  ⟨(stuffing_escapes_markers.1 0x10).1 (by decide),
   (stuffing_escapes_markers.1 0x7E).2 (by decide),
   stuffing_escapes_markers.2 0x10 0x0600 1234⟩

/-- C9: one `sendData` call asserts the transmit direction before the first
byte, writes only (possibly stuffed) packet bytes while it is asserted, and
releases it only after the flush that follows the last write; the written
bytes de-stuff to the raw packet. -/
theorem sendData_tx_framing (type id : Nat) (val : Int) :
    ∃ ws : List Nat,
      sendDataEvents type id val
          = SerialEvent.setTX true ::
              (ws.map SerialEvent.write ++ [SerialEvent.flush, SerialEvent.setTX false])
        ∧ destuff ws = sendPacket type id val :=
  ⟨stuffAll (sendPacket type id val), rfl, destuff_stuffAll _⟩

/-- C10: `setSensorData idx id val` overwrites slot `idx` unconditionally and
leaves every other slot, the cursor, the device id and the active count
unchanged. -/
theorem setSensorData_frame_effect (s : FrskyState) (idx id val : Nat)
    (h : idx < MAX_SENSORS) :
    (setSensorData s idx id val).sensorTable idx = ⟨id, val⟩
      ∧ (∀ j, j ≠ idx → (setSensorData s idx id val).sensorTable j = s.sensorTable j)
      ∧ (setSensorData s idx id val).sensorTableIdx = s.sensorTableIdx
      ∧ (setSensorData s idx id val).sensorId = s.sensorId
      ∧ (setSensorData s idx id val).sensorValues = s.sensorValues := by
  refine ⟨by simp [setSensorData], fun j hj => ?_, rfl, rfl, rfl⟩
  simp [setSensorData, hj]

/-- C10 witness: overwriting slot 3 of the freshly initialized state. -/
theorem setSensorData_frame_effect_witness :
    (3 : Nat) < MAX_SENSORS
      ∧ (setSensorData initialState 3 5 7).sensorTable 3 = ⟨5, 7⟩
      ∧ (setSensorData initialState 3 5 7).sensorTable 0 = initialState.sensorTable 0
      ∧ (setSensorData initialState 3 5 7).sensorValues = initialState.sensorValues :=
  ⟨by decide,
   (setSensorData_frame_effect initialState 3 5 7 (by decide)).1,
   (setSensorData_frame_effect initialState 3 5 7 (by decide)).2.1 0 (by decide),
   (setSensorData_frame_effect initialState 3 5 7 (by decide)).2.2.2.2⟩

/-- C5 counterexample: the claim "changing any single byte changes the
checksum" is false — replacing byte 0 of `[0, 1, 0, 0, 0, 0, 0, 0]` by `0xFF`
(a value different from the old byte) leaves the checksum unchanged, because
`0x00` and `0xFF` are both representations of zero in one's-complement
arithmetic. -/
theorem crc_single_byte_flip_counterexample :
    CRC (List.set [0, 1, 0, 0, 0, 0, 0, 0] 0 255) = CRC [0, 1, 0, 0, 0, 0, 0, 0]
      ∧ (255 : Nat) ≠ List.getD [0, 1, 0, 0, 0, 0, 0, 0] 0 0 := by
  decide

/-- C5 as amended: the checksum is deterministic, and changing a single byte
of an 8-byte input changes the checksum unless the old and new byte are
`0x00` and `0xFF` in some order (one's-complement-equal bytes, which may
collide). -/
theorem crc_single_byte_flip_amended (b : List Nat) (hlen : b.length = 8)
    (hall : ∀ x ∈ b, x < 256) (i v : Nat) (hi : i < 8) (hv : v < 256)
    (hne : v ≠ b.getD i 0)
    (h1 : ¬(v = 0 ∧ b.getD i 0 = 255)) (h2 : ¬(v = 255 ∧ b.getD i 0 = 0)) :
    CRC (b.set i v) ≠ CRC b ∧ CRC b = CRC b := by
  refine ⟨fun heq => ?_, rfl⟩
  have hlt1 : (b.set i v).foldl crcStep 0 < 256 := foldl_crcStep_lt _ 0 (by norm_num)
  have hlt2 : b.foldl crcStep 0 < 256 := foldl_crcStep_lt _ 0 (by norm_num)
  have hacc : (b.set i v).foldl crcStep 0 = b.foldl crcStep 0 := by
    rw [CRC, CRC] at heq; omega
  have hm1 := foldl_crcStep_mod255 (b.set i v) 0 (by norm_num) (fun x hx => by
    rcases List.mem_or_eq_of_mem_set hx with h | h
    · exact hall x h
    · omega)
  have hm2 := foldl_crcStep_mod255 b 0 (by norm_num) hall
  have hsum := sum_set b i v (by omega)
  have hgd : b.getD i 0 < 256 := getD_lt_256 b i (by omega) hall
  omega

/-- C5 witness for the amended claim: flipping byte 2 of the concrete packet
prefix `[0x10, 0x00, 0x06, 0xD2, 0x04, 0x00, 0x00, 0x13]` from `0x06` to
`0x07` changes the checksum. -/
theorem crc_single_byte_flip_amended_witness :
    ([0x10, 0x00, 0x06, 0xD2, 0x04, 0x00, 0x00, 0x13] : List Nat).length = 8
      ∧ (∀ x ∈ ([0x10, 0x00, 0x06, 0xD2, 0x04, 0x00, 0x00, 0x13] : List Nat), x < 256)
      ∧ (2 : Nat) < 8 ∧ (7 : Nat) < 256
      ∧ (7 : Nat) ≠ List.getD [0x10, 0x00, 0x06, 0xD2, 0x04, 0x00, 0x00, 0x13] 2 0
      ∧ CRC (List.set [0x10, 0x00, 0x06, 0xD2, 0x04, 0x00, 0x00, 0x13] 2 7)
          ≠ CRC [0x10, 0x00, 0x06, 0xD2, 0x04, 0x00, 0x00, 0x13] :=
  ⟨by decide, by decide, by decide, by decide, by decide,
   (crc_single_byte_flip_amended [0x10, 0x00, 0x06, 0xD2, 0x04, 0x00, 0x00, 0x13]
     (by decide) (by decide) 2 7 (by decide) (by decide) (by decide)
     (by decide) (by decide)).1⟩

/-- C6: a frame-begin marker followed by a byte different from the configured
sensor id transmits nothing, leaves the whole state (table and cursor)
unchanged, and returns the dispatcher to the seek-frame state; the input is
silently ignored. -/
theorem poll_ignores_other_id (s : FrskyState) (x : Nat) (hx : x ≠ s.sensorId)
    (rest : List Nat) :
    pollLoop s (SPORT_FRAME_BEGIN :: x :: rest) = pollLoop s rest
      ∧ pollLoop s [SPORT_FRAME_BEGIN, x] = (s, [], false) := by
  refine ⟨pollLoop_nomatch s x rest (by tauto), ?_⟩
  rw [show [SPORT_FRAME_BEGIN, x] = SPORT_FRAME_BEGIN :: x :: [] from rfl,
    pollLoop_nomatch s x [] (by tauto)]
  rfl

/-- C6 witness: device id 6, polled with id 5. -/
theorem poll_ignores_other_id_witness :
    (5 : Nat) ≠ (FrskyState.begin initialState 6 2).sensorId
      ∧ pollLoop (FrskyState.begin initialState 6 2) [SPORT_FRAME_BEGIN, 5]
          = (FrskyState.begin initialState 6 2, [], false) :=
  ⟨by decide, (poll_ignores_other_id (FrskyState.begin initialState 6 2) 5 (by decide) []).2⟩

/-- C7: with `activeCount = 0`, no input byte sequence ever makes `poll`
transmit a data frame, and the state (in particular the cursor, so the
cursor-advance modulo computation is never reached) is unchanged. -/
theorem poll_inactive_no_frames (s : FrskyState) (h : s.sensorValues = 0)
    (input : List Nat) :
    (pollLoop s input).2.1 = [] ∧ (pollLoop s input).1 = s :=
  ⟨(pollLoop_inactive input s h).2, (pollLoop_inactive input s h).1⟩

/-- C7 witness: the freshly initialized state (`activeCount = 0`), fed a
frame-begin marker followed by its own (zero) sensor id, sends nothing. -/
theorem poll_inactive_no_frames_witness :
    initialState.sensorValues = 0
      ∧ (pollLoop initialState [SPORT_FRAME_BEGIN, 0, 55]).2.1 = []
      ∧ (pollLoop initialState [SPORT_FRAME_BEGIN, 0, 55]).1 = initialState :=
  ⟨rfl,
   (poll_inactive_no_frames initialState rfl [SPORT_FRAME_BEGIN, 0, 55]).1,
   (poll_inactive_no_frames initialState rfl [SPORT_FRAME_BEGIN, 0, 55]).2⟩

/-- C8: after `begin` with a positive `activeSensorCount` the invariant
`cursor < activeCount` holds; it is preserved by every `poll` input, by
`sendData` (which touches no state) and by `setSensorData`; and a
successfully answered poll advances the cursor by exactly one modulo
`activeCount`. -/
theorem begin_cursor_invariant (sid n : Nat) (hn : 0 < n) :
    (FrskyState.begin initialState sid n).sensorTableIdx
        < (FrskyState.begin initialState sid n).sensorValues
      ∧ (∀ (s : FrskyState) (l : List Nat), s.sensorTableIdx < s.sensorValues →
          (pollLoop s l).1.sensorTableIdx < (pollLoop s l).1.sensorValues)
      ∧ (∀ (s : FrskyState) (type id : Nat) (val : Int), sendDataState s type id val = s)
      ∧ (∀ (s : FrskyState) (idx id val : Nat), s.sensorTableIdx < s.sensorValues →
          (setSensorData s idx id val).sensorTableIdx
            < (setSensorData s idx id val).sensorValues)
      ∧ (∀ s : FrskyState, s.sensorValues ≠ 0 →
          (pollLoop s [SPORT_FRAME_BEGIN, s.sensorId]).1.sensorTableIdx
            = (s.sensorTableIdx + 1) % s.sensorValues) := by
  refine ⟨hn, fun s l hc => pollLoop_len_idx_lt l.length l (Nat.le_refl _) s hc,
    fun s type id val => rfl, fun s idx id val h => h, fun s hvals => ?_⟩
  rw [show [SPORT_FRAME_BEGIN, s.sensorId] = SPORT_FRAME_BEGIN :: s.sensorId :: [] from rfl,
    pollLoop_match s [] hvals]
  rfl

/-- C8 witness: `begin 6 2` establishes the invariant, and a matching poll
advances the cursor from 0 to 1. -/
theorem begin_cursor_invariant_witness :
    (0 : Nat) < 2
      ∧ (FrskyState.begin initialState 6 2).sensorTableIdx
          < (FrskyState.begin initialState 6 2).sensorValues
      ∧ (pollLoop (FrskyState.begin initialState 6 2) [SPORT_FRAME_BEGIN, 6]).1.sensorTableIdx
          = ((FrskyState.begin initialState 6 2).sensorTableIdx + 1)
              % (FrskyState.begin initialState 6 2).sensorValues :=
  ⟨by decide, (begin_cursor_invariant 6 2 (by decide)).1,
   (begin_cursor_invariant 6 2 (by decide)).2.2.2.2
     (FrskyState.begin initialState 6 2) (by decide)⟩

/-- C4: with `activeCount = n > 0` slots (within the table capacity) holding
distinct well-formed values and the cursor in range, `n` consecutive
successful polls transmit each slot's packet exactly once, in slot-index
order starting from the current cursor, and the `(n+1)`-th poll transmits the
first slot's packet again. -/
theorem poll_round_robin (s : FrskyState)
    (hn : 0 < s.sensorValues) (hn8 : s.sensorValues ≤ MAX_SENSORS)
    (hc : s.sensorTableIdx < s.sensorValues)
    (hfields : ∀ j, j < s.sensorValues →
        (s.sensorTable j).id < 65536 ∧ (s.sensorTable j).val < 2 ^ 32)
    (hdist : ∀ j, j < s.sensorValues → ∀ l, l < s.sensorValues →
        s.sensorTable j = s.sensorTable l → j = l) :
    (pollLoop s (pollInputs s.sensorId s.sensorValues)).2.1
        = (List.range s.sensorValues).map
            (fun j => slotPacket s ((s.sensorTableIdx + j) % s.sensorValues))
      ∧ (∀ j, j < s.sensorValues →
          ((pollLoop s (pollInputs s.sensorId s.sensorValues)).2.1).count
              (slotPacket s j) = 1)
      ∧ (pollLoop s (pollInputs s.sensorId (s.sensorValues + 1))).2.1
          = (pollLoop s (pollInputs s.sensorId s.sensorValues)).2.1
              ++ [slotPacket s s.sensorTableIdx] := by
  have hrot := pollLoop_rotation s.sensorValues s (by omega) hc
  have hrot1 := pollLoop_rotation (s.sensorValues + 1) s (by omega) hc
  have houts : (pollLoop s (pollInputs s.sensorId s.sensorValues)).2.1
      = (List.range s.sensorValues).map
          (fun j => slotPacket s ((s.sensorTableIdx + j) % s.sensorValues)) := by
    rw [hrot]
  have houts1 : (pollLoop s (pollInputs s.sensorId (s.sensorValues + 1))).2.1
      = (List.range (s.sensorValues + 1)).map
          (fun j => slotPacket s ((s.sensorTableIdx + j) % s.sensorValues)) := by
    rw [hrot1]
  refine ⟨houts, fun j hj => ?_, ?_⟩
  · rw [houts]
    have hsplit : (List.range s.sensorValues).map
          (fun i => slotPacket s ((s.sensorTableIdx + i) % s.sensorValues))
        = ((List.range s.sensorValues).map
            (fun i => (s.sensorTableIdx + i) % s.sensorValues)).map (slotPacket s) := by
      rw [List.map_map]
      rfl
    rw [hsplit,
      count_map_eq_count (slotPacket s) s.sensorValues j hj ?_ _ ?_,
      count_rot s.sensorValues s.sensorTableIdx j hn hc hj]
    · intro x hx hpkt
      have hinj := sendPacket_inj (s.sensorTable x).id (s.sensorTable j).id
        (s.sensorTable x).val (s.sensorTable j).val
        (hfields x hx).1 (hfields j hj).1 (hfields x hx).2 (hfields j hj).2 hpkt
      exact hdist x hx j hj (SensorData.ext' _ _ hinj.1 hinj.2)
    · intro x hx
      rcases List.mem_map.mp hx with ⟨i, -, hi⟩
      rw [← hi]
      exact Nat.mod_lt _ hn
  · rw [houts1, houts, List.range_succ, List.map_append, List.map_cons, List.map_nil,
      Nat.add_mod_right, Nat.mod_eq_of_lt hc]

/-- C4 witness: `begin 6 2` with slot 0 = `(0x0600, 100)` and slot 1 =
`(0x0610, 200)`; feeding `[0x7E, 0x06]` twice transmits slot 0's packet and
then slot 1's packet, in that order. -/
theorem poll_round_robin_witness :
    pollInputs
        (setSensorData (setSensorData (FrskyState.begin initialState 6 2) 0 0x0600 100)
            1 0x0610 200).sensorId
        (setSensorData (setSensorData (FrskyState.begin initialState 6 2) 0 0x0600 100)
            1 0x0610 200).sensorValues
      = [0x7E, 0x06, 0x7E, 0x06]
    ∧ (pollLoop
          (setSensorData (setSensorData (FrskyState.begin initialState 6 2) 0 0x0600 100)
            1 0x0610 200)
          (pollInputs
            (setSensorData (setSensorData (FrskyState.begin initialState 6 2) 0 0x0600 100)
              1 0x0610 200).sensorId
            (setSensorData (setSensorData (FrskyState.begin initialState 6 2) 0 0x0600 100)
              1 0x0610 200).sensorValues)).2.1
        = [sendPacket 0x10 0x0600 (100 : Int), sendPacket 0x10 0x0610 (200 : Int)] :=
  ⟨by decide,
   (poll_round_robin
      (setSensorData (setSensorData (FrskyState.begin initialState 6 2) 0 0x0600 100)
        1 0x0610 200)
      (by decide) (by decide) (by decide) (by decide) (by decide)).1.trans (by decide)⟩

end FrskySP
